import Mathlib

/-!
Verification development for the FAI report generator (`src/app.py`).

The application is a single-file form-to-document pipeline:
image normalization (`optimize_image`), captioned page rendering
(`render_image`), a cover-page builder using `textwrap.wrap`, and two
button handlers (build draft, convert to PDF) over per-session state.

Modelling conventions:
* raster images are records carrying width, height, the EXIF orientation
  tag (1 meaning upright or absent), the color mode, and an abstract
  pixel payload (`data : Nat`); concrete pixel transforms performed by
  the imaging library (resampling, orientation transposition, color
  conversion) are uninterpreted functions collected in `PixelOps`;
* text measurement performed by the font backend (`textbbox` height,
  `textlength`) is an uninterpreted `FontMetrics` structure; PIL
  guarantees `bbox[3] >= bbox[1]`, so heights are natural numbers;
* the Python float computation `int(w * (max_size / long_edge))` of the
  resize branch is kept abstract (`PixelOps.scaledDim`), constrained only
  by facts that standard IEEE double rounding-error bounds give for
  image-sized operands: monotonicity in the scaled dimension, and a
  longer-edge result within one unit below the ceiling (the program
  truncates a 4177-pixel edge to 2999, not 3000);
* pages and canvases record their dimensions plus the ordered list of
  draw operations performed on them.
-/

/-- Ink colors used by the drawing calls in the source. -/
inductive Ink where
  | black
  | gray
  | white
deriving DecidableEq

/-- A raster image: dimensions, EXIF orientation tag (1 = upright/absent),
color mode, and an abstract pixel payload. -/
structure Img where
  width : Nat
  height : Nat
  orientation : Nat
  mode : List Char
  data : Nat
deriving DecidableEq

/-- Uninterpreted pixel-level operations of the imaging library together
with the scaled-dimension computation of `optimize_image`:
`transposeData`, `resampleData` and `convertData` model orientation
transposition, LANCZOS resampling and color-mode conversion of the pixel
payload, and `scaledDim d ms le` models the Python expression
`int(d * (ms / le))` evaluated in IEEE double arithmetic.  The float
result is kept abstract; the three accompanying facts are exactly what
standard double rounding-error bounds give for image-sized operands
(far below 2^52): truncation of a monotonically rounded product is
monotone in `d`, and for `0 < ms < le` the two roundings keep
`le * (ms / le)` strictly between `ms - 1` and `ms + 1`, so the
truncated longer edge lands on `ms - 1` or `ms` (the program really
produces 2999 for `ms = 3000`, `le = 4177`).  All theorems hold for
every interpretation satisfying these bounds. -/
structure PixelOps where
  transposeData : Nat → Nat → Nat
  resampleData : Nat → Nat → Nat → Nat
  convertData : List Char → Nat → Nat
  scaledDim : Nat → Nat → Nat → Nat
  scaledDim_mono : ∀ d e ms le, 0 < le → d ≤ e → scaledDim d ms le ≤ scaledDim e ms le
  scaledDim_le : ∀ ms le, 0 < ms → ms < le → scaledDim le ms le ≤ ms
  scaledDim_ge : ∀ ms le, 0 < ms → ms < le → ms - 1 ≤ scaledDim le ms le

/-- Uninterpreted text measurement of the active font backend:
`textHeight size text` models `bbox[3] - bbox[1]` of `draw.textbbox`,
`textLength size text` models `draw.textlength`. -/
structure FontMetrics where
  textHeight : Nat → List Char → Nat
  textLength : Nat → List Char → Nat

/-- FOOTER_TEXT constant of `app.py`. -/
def FOOTER_TEXT : List Char := "Confidential – Internal Use Only".data

/-- COVER_WIDTH constant of `app.py`. -/
def COVER_WIDTH : Nat := 1020

/-- COVER_HEIGHT constant of `app.py`. -/
def COVER_HEIGHT : Nat := 850

/-- CATEGORIES constant of `app.py`: the 13 fixed category names, in order. -/
def CATEGORIES : List (List Char) :=
  ["Outer Carton Packaging",
   "Box Labels",
   "Internal Packaging and Accessories",
   "Chassis View",
   "Composite Labels",
   "Internal Configuration",
   "CPU",
   "DIMM",
   "Drives",
   "Fan",
   "Adapter or IO Card",
   "PSU",
   "Internal Wiring"].map String.data

/-- MAX_PHOTOS constant of `app.py`: photo slots per category. -/
def MAX_PHOTOS : Nat := 5

/-- EXIF orientations 5 to 8 transpose the image, swapping width and
height; orientations 2 to 4 flip or rotate by 180 degrees and keep the
dimensions. -/
def orientationSwaps (o : Nat) : Bool :=
  decide (o = 5 ∨ o = 6 ∨ o = 7 ∨ o = 8)

/-- Model of `ImageOps.exif_transpose`: when the orientation tag is one
of 2..8 the pixel data is transposed accordingly (swapping dimensions for
5..8) and the tag is removed (set to upright 1); otherwise the image is
returned unchanged (a copy with identical contents). -/
def exif_transpose (P : PixelOps) (img : Img) : Img :=
  if 2 ≤ img.orientation ∧ img.orientation ≤ 8 then
    { width := if orientationSwaps img.orientation then img.height else img.width,
      height := if orientationSwaps img.orientation then img.width else img.height,
      orientation := 1,
      mode := img.mode,
      data := P.transposeData img.orientation img.data }
  else img

/-- Model of `Image.resize` with LANCZOS resampling: the new dimensions
are as requested, orientation and mode are preserved, pixels are
resampled. -/
def resize (P : PixelOps) (img : Img) (w h : Nat) : Img :=
  { width := w, height := h, orientation := img.orientation,
    mode := img.mode, data := P.resampleData w h img.data }

/-- Model of `img.convert("RGB")`: converting an already-RGB image
returns a pixel-identical copy; otherwise the mode becomes RGB and the
pixels are converted. -/
def convertRGB (P : PixelOps) (img : Img) : Img :=
  if img.mode = "RGB".data then img
  else { img with mode := "RGB".data, data := P.convertData img.mode img.data }

/-- Function `optimize_image` from `app.py`: orientation-safe transpose,
downscale (only) when the longer edge exceeds `max_size`, the new
dimensions being `int(d * (max_size / long_edge))` computed in float
arithmetic (the abstract `scaledDim`), then convert to RGB; returns the
image and the `quality` value. -/
def optimize_image (P : PixelOps) (img0 : Img) (max_size quality : Nat) : Img × Nat :=
  let img1 := exif_transpose P img0
  let long_edge := max img1.width img1.height
  let img2 :=
    if max_size < long_edge then
      resize P img1 (P.scaledDim img1.width max_size long_edge)
        (P.scaledDim img1.height max_size long_edge)
    else img1
  (convertRGB P img2, quality)

/-- Function `optimize_image` at its default arguments `max_size=3000`,
`quality=95`, as invoked by the capture handler in `app.py`. -/
def prepare (P : PixelOps) (img : Img) : Img × Nat :=
  optimize_image P img 3000 95

/-- A drawing operation recorded on a canvas. -/
inductive DrawOp where
  | text (x y : Int) (s : List Char) (fontSize : Nat) (color : Ink) (anchorMM : Bool)
  | paste (x y : Int) (img : Img)
deriving DecidableEq

/-- Vertical coordinate of a drawing operation. -/
def opY : DrawOp → Int
  | .text _ y _ _ _ _ => y
  | .paste _ y _ => y

/-- A canvas (`Image.new` result): dimensions, background fill, and the
ordered drawing operations performed on it. -/
structure Canvas where
  width : Nat
  height : Nat
  background : Ink
  ops : List DrawOp
deriving DecidableEq

/-- Added bottom-bar height of `render_image`:
`label_h + footer_h + padding*2 + footer_gap` with `padding = 20`,
`footer_gap = 10`; a function of the label and the fixed footer string
only (for a fixed font backend). -/
def bar_h (M : FontMetrics) (label : List Char) : Nat :=
  M.textHeight 32 label + M.textHeight 20 FOOTER_TEXT + 20 * 2 + 10

/-- Horizontal start offset `(img.width - lw)//2` of the label in
`render_image` (Python floor division, hence `Int.fdiv`). -/
def labelX (M : FontMetrics) (w : Nat) (label : List Char) : Int :=
  Int.fdiv ((w : Int) - (M.textLength 32 label : Int)) 2

/-- Horizontal start offset `(img.width - fw)//2` of the footer in
`render_image`. -/
def footerX (M : FontMetrics) (w : Nat) : Int :=
  Int.fdiv ((w : Int) - (M.textLength 20 FOOTER_TEXT : Int)) 2

/-- Function `render_image` from `app.py`: a fresh white canvas of the image's
width and `image height + bar_h`, with the (copied) image pasted at the
origin, the label centered at `image height + padding`, and the footer
centered at `image height + padding + label_h + footer_gap`. -/
def render_image (M : FontMetrics) (img : Img) (label : List Char) : Canvas :=
  let padding : Nat := 20
  let footer_gap : Nat := 10
  let label_h := M.textHeight 32 label
  { width := img.width,
    height := img.height + bar_h M label,
    background := .white,
    ops := [ .paste 0 0 img,
             .text (labelX M img.width label) ((img.height + padding : Nat) : Int)
               label 32 .black false,
             .text (footerX M img.width)
               ((img.height + padding + label_h + footer_gap : Nat) : Int)
               FOOTER_TEXT 20 .gray false ] }

/-- Whitespace characters replaced by a single space by
`textwrap.TextWrapper` default `replace_whitespace` munging (tab
expansion is not modelled; modelled inputs contain no tabs). -/
def pythonWS : List Char := [' ', '\t', '\n', '\x0b', '\x0c', '\r']

/-- Model of `TextWrapper._munge_whitespace`: every whitespace character
becomes a single space. -/
def munge (text : List Char) : List Char :=
  text.map (fun c => if c ∈ pythonWS then ' ' else c)

/-- Model of `chunk.strip() == ''`: the chunk consists of whitespace
only (after munging, whitespace is exactly the space character). -/
def isSpaceRun (c : List Char) : Bool :=
  c.all (fun ch => ch == ' ')

/-- Model of `TextWrapper._split` for texts made of plain words and
spaces: maximal runs of spaces and of non-space characters, in order.
The default hyphen and em-dash chunking of `wordsep_re` is not
modelled, so results are cited only for texts containing no hyphen. -/
def splitChunks : List Char → List (List Char)
  | [] => []
  | c :: rest =>
    match splitChunks rest with
    | (d :: ds) :: groups =>
      if ((c == ' ') == (d == ' ')) then (c :: d :: ds) :: groups
      else [c] :: (d :: ds) :: groups
    | _ => [[c]]

/-- Inner greedy loop of `TextWrapper._wrap_chunks`: move chunks onto the
current line while the accumulated length stays within `width`; returns
the line chunks and the remaining chunks. -/
def greedyTake (width : Nat) : Nat → List (List Char) → List (List Char) × List (List Char)
  | _, [] => ([], [])
  | curLen, c :: rest =>
    if curLen + c.length ≤ width then
      let p := greedyTake width (curLen + c.length) rest
      (c :: p.1, p.2)
    else ([], c :: rest)

/-- Option `drop_whitespace` handling at the start of a line: when previous
lines exist and the first pending chunk is whitespace, it is dropped. -/
def dropLeadingSpace (hasLines : Bool) (chunks : List (List Char)) : List (List Char) :=
  match chunks with
  | c :: rest => if hasLines && isSpaceRun c then rest else chunks
  | [] => []

/-- Model of `TextWrapper._handle_long_word` with `break_long_words`
(hyphen breaking not modelled): when the next chunk is longer than
`width`, the current line takes its first `space_left` characters and the
rest stays pending. -/
def handleLong (width curLen : Nat) (curLine rest : List (List Char)) :
    List (List Char) × List (List Char) :=
  match rest with
  | c :: rest2 =>
    if width < c.length then
      let spaceLeft := if width < 1 then 1 else width - curLen
      (curLine ++ [c.take spaceLeft], c.drop spaceLeft :: rest2)
    else (curLine, rest)
  | [] => (curLine, [])

/-- Option `drop_whitespace` handling at the end of a line: a trailing
whitespace chunk is dropped. -/
def dropTrailingSpace (curLine : List (List Char)) : List (List Char) :=
  match curLine.getLast? with
  | some lastC => if isSpaceRun lastC then curLine.dropLast else curLine
  | none => curLine

/-- One iteration of the outer `while chunks` loop of
`TextWrapper._wrap_chunks`: returns the produced line (if any) and the
remaining chunks. -/
def lineStep (width : Nat) (hasLines : Bool) (chunks : List (List Char)) :
    Option (List Char) × List (List Char) :=
  let cs := dropLeadingSpace hasLines chunks
  let g := greedyTake width 0 cs
  let curLen := (g.1.map List.length).sum
  let p := handleLong width curLen g.1 g.2
  let line := dropTrailingSpace p.1
  (if line.isEmpty then none else some line.flatten, p.2)

/-- Outer loop of `TextWrapper._wrap_chunks`, fuelled; every iteration
consumes at least one pending character or chunk, so any fuel of at
least `totalChars + numChunks` reaches the fixed point. -/
def wrapChunks (width : Nat) : Nat → List (List Char) → Bool → List (List Char)
  | 0, _, _ => []
  | _ + 1, [], _ => []
  | fuel + 1, c :: cs, hasLines =>
    let p := lineStep width hasLines (c :: cs)
    match p.1 with
    | some line => line :: wrapChunks width fuel p.2 true
    | none => wrapChunks width fuel p.2 hasLines

/-- Model of `textwrap.wrap(text, width)` with default options, for
texts of plain words and spaces (see `splitChunks`). -/
def wrapText (width : Nat) (text : List Char) : List (List Char) :=
  wrapChunks width (2 * text.length + 1) (splitChunks (munge text)) false

/-- Description-line drawing operations of the cover page: the wrapped
description lines are drawn at `(80, y)` with `y` starting at
`90 + 90 + 45 = 225` and advancing `34` per line, in font size 26. -/
def descLineOps (desc : List Char) : List DrawOp :=
  (wrapText 60 desc).enum.map
    (fun p => DrawOp.text 80 ((225 : Int) + 34 * (p.1 : Int)) p.2 26 Ink.black false)

/-- Report metadata collected by the form (the date is carried as its
`strftime("%d %b %Y")` rendering). -/
structure Metadata where
  description : List Char
  kmatx_part_number : List Char
  halbX_part_number : List Char
  sales_order : List Char
  report_date : List Char
deriving DecidableEq

/-- Cover page built by the Convert-to-PDF handler: a fixed
`COVER_WIDTH × COVER_HEIGHT` white canvas with the title, the
description block (wrapped at 60 columns, 34 per line), the four
metadata fields 50 apart, and the footer pinned near the bottom edge. -/
def coverPage (meta : Metadata) : Canvas :=
  let y2 : Nat := 90 + 90 + 45
  let yAfter : Nat := y2 + 34 * (wrapText 60 meta.description).length + 30
  { width := COVER_WIDTH,
    height := COVER_HEIGHT,
    background := .white,
    ops := [ DrawOp.text ((COVER_WIDTH / 2 : Nat) : Int) 90 "NED FAI REPORT".data 56 .black true,
             DrawOp.text 60 (90 + 90 : Nat) "Description:".data 30 .black false ]
           ++ descLineOps meta.description
           ++ [ DrawOp.text 60 (yAfter : Int)
                  ("KMATX Part Number : ".data ++ meta.kmatx_part_number) 30 .black false,
                DrawOp.text 60 ((yAfter + 50 : Nat) : Int)
                  ("HALBX Part Number : ".data ++ meta.halbX_part_number) 30 .black false,
                DrawOp.text 60 ((yAfter + 100 : Nat) : Int)
                  ("Sales Order : ".data ++ meta.sales_order) 30 .black false,
                DrawOp.text 60 ((yAfter + 150 : Nat) : Int)
                  ("Date : ".data ++ meta.report_date) 30 .black false,
                DrawOp.text ((COVER_WIDTH / 2 : Nat) : Int) ((COVER_HEIGHT - 35 : Nat) : Int)
                  FOOTER_TEXT 18 .gray true ] }

/-- A draft entry: include flag, prepared image, editable label
(initialized to the source category name). -/
structure DraftEntry where
  «include» : Bool
  image : Img
  label : List Char
deriving DecidableEq

/-- Per-session state: the photo slots (a list of optional prepared
images per category name), the stored draft, and the preview flag. -/
structure SessionState where
  slots : List Char → List (Option Img)
  draft : List DraftEntry
  preview_ready : Bool

/-- Draft list built by the Preview-Final-Draft handler: one entry per
non-empty slot, iterating categories in `CATEGORIES` order and slots in
list order, each entry `{include: True, image: img, label: cat}`. -/
def buildDraftList (slots : List Char → List (Option Img)) : List DraftEntry :=
  CATEGORIES.flatMap
    (fun cat => (slots cat).filterMap (fun o => o.map (fun img => ⟨true, img, cat⟩)))

/-- Preview-Final-Draft button handler: builds the draft from the
current slots; when it is empty, reports an error and leaves the session
state untouched; otherwise stores the draft and sets `preview_ready`. -/
def previewFinalDraft (s : SessionState) : SessionState × Option (List Char) :=
  let draft := buildDraftList s.slots
  if draft.isEmpty then (s, some ("Please take/upload at least one photo.".data))
  else ({ s with draft := draft, preview_ready := true }, none)

/-- Convert-to-PDF button handler: filters the draft by the include
flag; when nothing is selected, reports an error; otherwise produces the
cover page followed by one captioned rendering per selected entry, in
draft order. -/
def convertToPDF (M : FontMetrics) (meta : Metadata) (s : SessionState) :
    Except (List Char) (List Canvas) :=
  let selected := s.draft.filter (fun i => i.«include»)
  if selected.isEmpty then Except.error ("No images selected for PDF.".data)
  else Except.ok
    (coverPage meta :: selected.map (fun item => render_image M item.image item.label))

/-- Drawing operation on a heap-allocated image: a paste records the
source image by its heap id. -/
inductive HOp where
  | pasteId (x y : Int) (srcId : Nat)
  | text (x y : Int) (s : List Char) (fontSize : Nat) (color : Ink)
deriving DecidableEq

/-- A heap-allocated image object: dimensions, mode, abstract pixel
payload, and the mutation log of drawing operations applied to it. -/
structure HImg where
  width : Nat
  height : Nat
  mode : List Char
  data : Nat
  ops : List HOp
deriving DecidableEq

/-- Append a drawing operation to the image object at heap index `i`
(the in-place mutation performed by an `ImageDraw` call). -/
def appendOp (heap : List HImg) (i : Nat) (op : HOp) : List HImg :=
  heap.set i
    (let im := heap.getD i ⟨0, 0, [], 0, []⟩
     { im with ops := im.ops ++ [op] })

/-- Function `render_image` embedded with an explicit object heap to express its
effect on caller-visible objects: `img.copy()` allocates a fresh copy,
`Image.new` allocates a fresh canvas, and every drawing call mutates the
canvas only.  Returns the final heap and the canvas id. -/
def render_image_heap (M : FontMetrics) (heap : List HImg) (imgId : Nat) (label : List Char) :
    List HImg × Nat :=
  let src := heap.getD imgId ⟨0, 0, [], 0, []⟩
  let copyId := heap.length
  let h1 := heap ++ [src]
  let canvasId := h1.length
  let h2 := h1 ++ [⟨src.width, src.height + bar_h M label, "RGB".data, 0, []⟩]
  let label_h := M.textHeight 32 label
  let h3 := appendOp h2 canvasId (.pasteId 0 0 copyId)
  let h4 := appendOp h3 canvasId
    (.text (labelX M src.width label) ((src.height + 20 : Nat) : Int) label 32 .black)
  let h5 := appendOp h4 canvasId
    (.text (footerX M src.width) ((src.height + 20 + label_h + 10 : Nat) : Int)
      FOOTER_TEXT 20 .gray)
  (h5, canvasId)

/-- Trivial interpretation of the pixel-level operations, for concrete
evaluation; its `scaledDim` is exact floor division, one behaviour the
float computation can exhibit. -/
def P0 : PixelOps :=
  { transposeData := fun _ d => d,
    resampleData := fun _ _ d => d,
    convertData := fun _ d => d,
    scaledDim := fun d ms le => d * ms / le,
    scaledDim_mono := fun _ _ ms _ _ hde =>
      Nat.div_le_div_right (Nat.mul_le_mul_right ms hde),
    scaledDim_le := fun ms _ hms hlt =>
      Nat.le_of_eq (Nat.mul_div_cancel_left ms (Nat.lt_trans hms hlt)),
    scaledDim_ge := fun ms le hms hlt => by
      show ms - 1 ≤ le * ms / le
      rw [Nat.mul_div_cancel_left ms (Nat.lt_trans hms hlt)]
      exact Nat.sub_le ms 1 }

/-- Interpretation whose `scaledDim` reproduces the float behaviour
observed in the program, `int(4177 * (3000 / 4177)) = 2999`: the longer
edge itself is truncated one unit below the ceiling, shorter dimensions
by exact floor division. -/
def P2999 : PixelOps :=
  { transposeData := fun _ d => d,
    resampleData := fun _ _ d => d,
    convertData := fun _ d => d,
    scaledDim := fun d ms le => if d = le then ms - 1 else d * ms / le,
    scaledDim_mono := by
      intro d e ms le hle hde
      dsimp only
      by_cases hd : d = le
      · by_cases he : e = le
        · rw [if_pos hd, if_pos he]
        · rw [if_pos hd, if_neg he]
          have hlt : le < e := Nat.lt_of_le_of_ne (hd ▸ hde) (fun h => he h.symm)
          calc ms - 1 ≤ ms := Nat.sub_le ms 1
            _ = le * ms / le := (Nat.mul_div_cancel_left ms hle).symm
            _ ≤ e * ms / le :=
                Nat.div_le_div_right (Nat.mul_le_mul_right ms (Nat.le_of_lt hlt))
      · by_cases he : e = le
        · rw [if_neg hd, if_pos he]
          have hdlt : d < le := Nat.lt_of_le_of_ne (he ▸ hde) hd
          rcases Nat.eq_zero_or_pos ms with hms | hms
          · subst hms
            simp
          · have h0 : d * ms < ms * le := by
              rw [Nat.mul_comm ms le]
              exact (Nat.mul_lt_mul_right hms).mpr hdlt
            have h2 : d * ms / le < ms := (Nat.div_lt_iff_lt_mul hle).mpr h0
            omega
        · rw [if_neg hd, if_neg he]
          exact Nat.div_le_div_right (Nat.mul_le_mul_right ms hde)
    scaledDim_le := by
      intro ms le _ _
      dsimp only
      rw [if_pos rfl]
      exact Nat.sub_le ms 1
    scaledDim_ge := by
      intro ms le _ _
      dsimp only
      rw [if_pos rfl] }

/-- Concrete font metrics for witnesses: every text is 10 units high and
`size * length` units wide. -/
def M0 : FontMetrics := ⟨fun _ _ => 10, fun sz s => sz * s.length⟩

/-- A small upright RGB image. -/
def imgRGB : Img := ⟨10, 8, 1, "RGB".data, 0⟩

/-- A small image carrying EXIF orientation 6 (90-degree rotation). -/
def imgRot : Img := ⟨100, 200, 6, "RGB".data, 7⟩

/-- An oversized upright image whose 4177-pixel longer edge the
program's float scaling truncates to 2999. -/
def imgWide : Img := ⟨4177, 2000, 1, "RGB".data, 3⟩

/-- Concrete report metadata. -/
def meta0 : Metadata :=
  ⟨"hello world".data, "K1".data, "H1".data, "S1".data, "01 Jan 2026".data⟩

/-- Photo slots with a single photo staged in CPU slot 0. -/
def slotsCPU : List Char → List (Option Img) :=
  fun cat =>
    if cat = "CPU".data then [some imgRGB, none, none, none, none]
    else List.replicate MAX_PHOTOS none

/-- Session with the CPU photo staged and no draft yet. -/
def sCPU : SessionState := ⟨slotsCPU, [], false⟩

/-- Session with the same slots but a user-edited draft (entry excluded
and relabelled), to exercise discard-on-rebuild. -/
def sCPUedited : SessionState := ⟨slotsCPU, [⟨false, imgRGB, "edited".data⟩], true⟩

/-- Session with every slot of every category empty. -/
def sEmpty : SessionState := ⟨fun _ => List.replicate MAX_PHOTOS none, [], false⟩

/-- Session holding a two-entry draft with one entry deselected. -/
def sDraft : SessionState :=
  ⟨fun _ => List.replicate MAX_PHOTOS none,
   [⟨true, imgRGB, "CPU".data⟩, ⟨false, imgRGB, "Fan".data⟩], true⟩

/-- A one-image object heap. -/
def heap0 : List HImg := [⟨4, 3, "RGB".data, 0, []⟩]

theorem render_image_sanity :
    (render_image ⟨fun _ _ => 7, fun sz s => sz * s.length⟩
      ⟨10, 8, 1, "RGB".data, 0⟩ "A".data).height = 8 + (7 + 7 + 40 + 10) := by
  decide

theorem wrap_sanity1 : wrapText 60 "".data = [] := by decide

theorem wrap_sanity2 :
    wrapText 10 "hello world foo".data = ["hello".data, "world foo".data] := by decide

theorem convertRGB_width (P : PixelOps) (i : Img) : (convertRGB P i).width = i.width := by
  unfold convertRGB; split <;> rfl

theorem convertRGB_height (P : PixelOps) (i : Img) : (convertRGB P i).height = i.height := by
  unfold convertRGB; split <;> rfl

theorem convertRGB_orientation (P : PixelOps) (i : Img) :
    (convertRGB P i).orientation = i.orientation := by
  unfold convertRGB; split <;> rfl

theorem convertRGB_mode (P : PixelOps) (i : Img) : (convertRGB P i).mode = "RGB".data := by
  unfold convertRGB; split
  · assumption
  · rfl

theorem exif_transpose_notTag (P : PixelOps) (i : Img) :
    ¬(2 ≤ (exif_transpose P i).orientation ∧ (exif_transpose P i).orientation ≤ 8) := by
  unfold exif_transpose; split
  · simp
  · assumption

theorem exif_transpose_fix (P : PixelOps) (i : Img)
    (h : ¬(2 ≤ i.orientation ∧ i.orientation ≤ 8)) : exif_transpose P i = i := by
  unfold exif_transpose; rw [if_neg h]

theorem exif_transpose_long_edge (P : PixelOps) (i : Img) :
    max (exif_transpose P i).width (exif_transpose P i).height = max i.width i.height := by
  unfold exif_transpose; split
  · dsimp only; split
    · exact Nat.max_comm i.height i.width
    · rfl
  · rfl

theorem scaledDim_max (P : PixelOps) {w h ms : Nat} (hlt : ms < max w h) :
    max (P.scaledDim w ms (max w h)) (P.scaledDim h ms (max w h))
      = P.scaledDim (max w h) ms (max w h) := by
  have hpos : 0 < max w h := Nat.lt_of_le_of_lt (Nat.zero_le ms) hlt
  rcases Nat.le_total w h with hle | hle
  · rw [Nat.max_eq_right hle] at hpos ⊢
    exact Nat.max_eq_right (P.scaledDim_mono w h ms h hpos hle)
  · rw [Nat.max_eq_left hle] at hpos ⊢
    exact Nat.max_eq_left (P.scaledDim_mono h w ms w hpos hle)

theorem optimize_dims_of_le (P : PixelOps) (i : Img) (ms q : Nat)
    (h : max (exif_transpose P i).width (exif_transpose P i).height ≤ ms) :
    (optimize_image P i ms q).1.width = (exif_transpose P i).width ∧
    (optimize_image P i ms q).1.height = (exif_transpose P i).height := by
  unfold optimize_image
  dsimp only
  rw [if_neg (Nat.not_lt.mpr h)]
  exact ⟨convertRGB_width P _, convertRGB_height P _⟩

theorem optimize_long_bounds_of_gt (P : PixelOps) (i : Img) (ms q : Nat) (hms : 0 < ms)
    (h : ms < max (exif_transpose P i).width (exif_transpose P i).height) :
    ms - 1 ≤ max (optimize_image P i ms q).1.width (optimize_image P i ms q).1.height ∧
    max (optimize_image P i ms q).1.width (optimize_image P i ms q).1.height ≤ ms := by
  unfold optimize_image
  dsimp only
  rw [if_pos h, convertRGB_width, convertRGB_height]
  rw [resize]
  dsimp only
  rw [scaledDim_max P h]
  exact ⟨P.scaledDim_ge ms _ hms h, P.scaledDim_le ms _ hms h⟩

theorem optimize_orientation (P : PixelOps) (i : Img) (ms q : Nat) :
    (optimize_image P i ms q).1.orientation = (exif_transpose P i).orientation := by
  unfold optimize_image
  dsimp only
  rw [convertRGB_orientation]
  split
  · rfl
  · rfl

theorem optimize_mode (P : PixelOps) (i : Img) (ms q : Nat) :
    (optimize_image P i ms q).1.mode = "RGB".data := convertRGB_mode P _

theorem optimize_snd (P : PixelOps) (i : Img) (ms q : Nat) :
    (optimize_image P i ms q).2 = q := rfl

theorem optimize_long_le_always (P : PixelOps) (i : Img) (ms q : Nat) (hms : 0 < ms) :
    max (optimize_image P i ms q).1.width (optimize_image P i ms q).1.height ≤ ms := by
  rcases Nat.lt_or_ge ms (max (exif_transpose P i).width (exif_transpose P i).height) with h | h
  · exact (optimize_long_bounds_of_gt P i ms q hms h).2
  · obtain ⟨hw, hh⟩ := optimize_dims_of_le P i ms q h
    rw [hw, hh]
    exact h

theorem prepare_fix (P : PixelOps) (y : Img)
    (hor : ¬(2 ≤ y.orientation ∧ y.orientation ≤ 8))
    (hle : max y.width y.height ≤ 3000)
    (hmode : y.mode = "RGB".data) :
    optimize_image P y 3000 95 = (y, 95) := by
  unfold optimize_image
  dsimp only
  rw [exif_transpose_fix P y hor, if_neg (Nat.not_lt.mpr hle)]
  unfold convertRGB
  rw [if_pos hmode]

/-- C6: `optimize_image` (at its default ceiling 3000 and quality 95) is
idempotent: a second application performs no reorientation, no resizing
and no color conversion, returning an image identical in dimensions,
orientation, mode and pixel data, for every interpretation of the
pixel-level operations. -/
theorem C6_prepare_idempotent (P : PixelOps) (img : Img) :
    optimize_image P (optimize_image P img 3000 95).1 3000 95
      = optimize_image P img 3000 95 := by
  have h := prepare_fix P (optimize_image P img 3000 95).1
    (by rw [optimize_orientation]; exact exif_transpose_notTag P img)
    (optimize_long_le_always P img 3000 95 (by norm_num))
    (optimize_mode P img 3000 95)
  rw [h]
  rfl

/-- C3 fails as stated: an input carrying EXIF orientation 6 whose
longer edge is already within the ceiling is rotated by the
orientation-safe transpose, so the output dimensions are the swap of the
input dimensions, not the input dimensions. -/
theorem C3_counterexample :
    max imgRot.width imgRot.height ≤ 3000 ∧
    ¬(((prepare P0 imgRot).1.width, (prepare P0 imgRot).1.height)
        = (imgRot.width, imgRot.height)) := by decide

/-- C3 (amended): `prepare` output's longer edge is at most 3000; the
EXIF pass preserves the longer edge (possibly swapping width and
height); when the input's longer edge is at most 3000 the output
dimensions equal the exif-normalized input dimensions (hence equal the
input's when no orientation swap applies), and when it exceeds 3000
both dimensions are downscaled by the float-computed ratio so that the
output's longer edge is 2999 or 3000 (float truncation can lose one
unit below the ceiling, as at a 4177-pixel edge). -/
theorem C3_output_dims (P : PixelOps) (img : Img) :
    max (prepare P img).1.width (prepare P img).1.height ≤ 3000 ∧
    max (exif_transpose P img).width (exif_transpose P img).height
      = max img.width img.height ∧
    (max img.width img.height ≤ 3000 →
      (prepare P img).1.width = (exif_transpose P img).width ∧
      (prepare P img).1.height = (exif_transpose P img).height) ∧
    (3000 < max img.width img.height →
      2999 ≤ max (prepare P img).1.width (prepare P img).1.height ∧
      max (prepare P img).1.width (prepare P img).1.height ≤ 3000) := by
  refine ⟨optimize_long_le_always P img 3000 95 (by norm_num),
    exif_transpose_long_edge P img, ?_, ?_⟩
  · intro h
    exact optimize_dims_of_le P img 3000 95
      (by rw [exif_transpose_long_edge]; exact h)
  · intro h
    exact optimize_long_bounds_of_gt P img 3000 95 (by norm_num)
      (by rw [exif_transpose_long_edge]; exact h)

theorem C3_output_dims_witness :
    ((prepare P0 imgRot).1.width = (exif_transpose P0 imgRot).width ∧
     (prepare P0 imgRot).1.height = (exif_transpose P0 imgRot).height) ∧
    (2999 ≤ max (prepare P2999 imgWide).1.width (prepare P2999 imgWide).1.height ∧
     max (prepare P2999 imgWide).1.width (prepare P2999 imgWide).1.height ≤ 3000) :=
  ⟨(C3_output_dims P0 imgRot).2.2.1 (by decide),
   (C3_output_dims P2999 imgWide).2.2.2 (by decide)⟩

/-- C4: the rendered page's width equals the input image's width and its
height exceeds it by the strictly positive bar height
`label_h + footer_h + 2*padding + footer_gap`, a function only of the
label and the fixed footer string for the given font metrics. -/
theorem C4_render_dims (M : FontMetrics) (img : Img) (label : List Char) :
    (render_image M img label).width = img.width ∧
    (render_image M img label).height = img.height + bar_h M label ∧
    0 < bar_h M label := by
  refine ⟨rfl, rfl, ?_⟩
  unfold bar_h
  omega

/-- C8: the cover page canvas has the constant dimensions
`COVER_WIDTH x COVER_HEIGHT = 1020 x 850` for every metadata record. -/
theorem C8_cover_dims (meta : Metadata) :
    (coverPage meta).width = 1020 ∧ (coverPage meta).height = 850 :=
  ⟨rfl, rfl⟩

/-- C10: when the label's measured width exceeds the image width, its
centering start offset `(width - lw)//2` is negative (likewise for the
footer), yet the canvas width still equals the image width, so
overflowing text is clipped rather than widening the page. -/
theorem C10_label_clipped (M : FontMetrics) (img : Img) (label : List Char)
    (hl : img.width < M.textLength 32 label)
    (hf : img.width < M.textLength 20 FOOTER_TEXT) :
    labelX M img.width label < 0 ∧ footerX M img.width < 0 ∧
    (render_image M img label).width = img.width := by
  refine ⟨?_, ?_, rfl⟩
  · have h1 : ((img.width : Int) - (M.textLength 32 label : Int)) < 0 := by
      have h2 := Int.ofNat_lt.mpr hl
      omega
    exact Int.fdiv_neg' h1 (by decide)
  · have h1 : ((img.width : Int) - (M.textLength 20 FOOTER_TEXT : Int)) < 0 := by
      have h2 := Int.ofNat_lt.mpr hf
      omega
    exact Int.fdiv_neg' h1 (by decide)

theorem C10_label_clipped_witness :
    labelX M0 imgRGB.width "A".data < 0 ∧ footerX M0 imgRGB.width < 0 ∧
    (render_image M0 imgRGB "A".data).width = imgRGB.width :=
  C10_label_clipped M0 imgRGB "A".data (by decide) (by decide)

/-- C1: whenever the draft has at least one included entry, the export
handler succeeds and produces exactly `1 + k` pages: page 0 is the cover
page and pages 1..k are the captioned renderings of the included draft
entries in draft order (non-included entries are skipped by `filter`,
which preserves the relative order of the rest). -/
theorem C1_assemble_pages (M : FontMetrics) (meta : Metadata) (s : SessionState)
    (h : 1 ≤ (s.draft.filter (fun e => e.«include»)).length) :
    ∃ pages, convertToPDF M meta s = Except.ok pages ∧
      pages.length = 1 + (s.draft.filter (fun e => e.«include»)).length ∧
      pages.head? = some (coverPage meta) ∧
      pages.tail = (s.draft.filter (fun e => e.«include»)).map
        (fun e => render_image M e.image e.label) := by
  have hnil : s.draft.filter (fun e => e.«include») ≠ [] := by
    intro heq
    rw [heq] at h
    simp at h
  have hempty : (s.draft.filter (fun e => e.«include»)).isEmpty = false :=
    List.isEmpty_eq_false.mpr hnil
  refine ⟨coverPage meta :: (s.draft.filter (fun e => e.«include»)).map
      (fun e => render_image M e.image e.label), ?_, ?_, ?_, ?_⟩
  · unfold convertToPDF
    dsimp only
    rw [hempty]
    rfl
  · simp [Nat.add_comm]
  · rfl
  · rfl

theorem C1_assemble_pages_witness :
    ∃ pages, convertToPDF M0 meta0 sDraft = Except.ok pages ∧
      pages.length = 1 + (sDraft.draft.filter (fun e => e.«include»)).length ∧
      pages.head? = some (coverPage meta0) ∧
      pages.tail = (sDraft.draft.filter (fun e => e.«include»)).map
        (fun e => render_image M0 e.image e.label) :=
  C1_assemble_pages M0 meta0 sDraft (by decide)

theorem buildDraftList_map_pairs (slots : List Char → List (Option Img)) :
    (buildDraftList slots).map (fun e => (e.image, e.label))
      = CATEGORIES.flatMap
          (fun cat => ((slots cat).filterMap id).map (fun img => (img, cat))) := by
  unfold buildDraftList
  rw [List.map_flatMap]
  congr 1
  funext cat
  rw [List.map_filterMap, List.map_filterMap]
  congr 1
  funext o
  cases o <;> rfl

theorem buildDraftList_all_included (slots : List Char → List (Option Img)) :
    ∀ e ∈ buildDraftList slots, e.«include» = true := by
  intro e he
  unfold buildDraftList at he
  obtain ⟨cat, _, hf⟩ := List.mem_flatMap.mp he
  obtain ⟨o, _, heq⟩ := List.mem_filterMap.mp hf
  cases o with
  | none => simp at heq
  | some i =>
    obtain rfl : (⟨true, i, cat⟩ : DraftEntry) = e := by simpa using heq
    rfl

theorem previewFinalDraft_ok (s : SessionState) (h : buildDraftList s.slots ≠ []) :
    previewFinalDraft s
      = ({ s with draft := buildDraftList s.slots, preview_ready := true }, none) := by
  unfold previewFinalDraft
  dsimp only
  rw [List.isEmpty_eq_false.mpr h]
  rfl

/-- C2: with at least one non-empty photo slot, the build-draft handler
succeeds and stores one entry per non-empty slot, iterating categories
in their fixed order and slots in index order, every entry included and
labelled with its source category; re-running it on a session with the
same slots (and arbitrarily edited draft) rebuilds the identical
sequence, discarding the edits. -/
theorem C2_build_draft (s s' : SessionState) (hslots : s'.slots = s.slots)
    (hne : ∃ cat ∈ CATEGORIES, ∃ o ∈ s.slots cat, o.isSome) :
    (previewFinalDraft s).2 = none ∧
    (previewFinalDraft s).1.preview_ready = true ∧
    (previewFinalDraft s).1.draft.map (fun e => (e.image, e.label))
      = CATEGORIES.flatMap
          (fun cat => ((s.slots cat).filterMap id).map (fun img => (img, cat))) ∧
    (∀ e ∈ (previewFinalDraft s).1.draft, e.«include» = true) ∧
    (previewFinalDraft s').1.draft = (previewFinalDraft s).1.draft ∧
    (previewFinalDraft s').2 = none := by
  obtain ⟨cat, hcat, o, ho, hsome⟩ := hne
  obtain ⟨img, rfl⟩ := Option.isSome_iff_exists.mp hsome
  have hmem : (⟨true, img, cat⟩ : DraftEntry) ∈ buildDraftList s.slots := by
    unfold buildDraftList
    exact List.mem_flatMap.mpr ⟨cat, hcat, List.mem_filterMap.mpr ⟨some img, ho, rfl⟩⟩
  have hnil : buildDraftList s.slots ≠ [] := List.ne_nil_of_mem hmem
  have hstep := previewFinalDraft_ok s hnil
  have hnil' : buildDraftList s'.slots ≠ [] := by rw [hslots]; exact hnil
  have hstep' := previewFinalDraft_ok s' hnil'
  rw [hstep, hstep']
  refine ⟨rfl, rfl, buildDraftList_map_pairs s.slots, buildDraftList_all_included s.slots, ?_, rfl⟩
  dsimp only
  rw [hslots]

theorem C2_build_draft_witness :
    (previewFinalDraft sCPU).2 = none ∧
    (previewFinalDraft sCPUedited).1.draft = (previewFinalDraft sCPU).1.draft := by
  have h := C2_build_draft sCPU sCPUedited rfl
    ⟨"CPU".data, by decide, some imgRGB, by decide, rfl⟩
  exact ⟨h.1, h.2.2.2.2.1⟩

/-- C7: when every photo slot of every category is empty, the
build-draft handler is rejected with an error message and the whole
session state (slots, stored draft, preview flag) is returned
unchanged; no draft is created. -/
theorem C7_empty_rejected (s : SessionState)
    (h : ∀ cat ∈ CATEGORIES, ∀ o ∈ s.slots cat, o = none) :
    previewFinalDraft s = (s, some ("Please take/upload at least one photo.".data)) := by
  have hnil : buildDraftList s.slots = [] := by
    unfold buildDraftList
    rw [List.flatMap_eq_nil_iff]
    intro cat hcat
    rw [List.filterMap_eq_nil_iff]
    intro o ho
    rw [h cat hcat o ho]
    rfl
  unfold previewFinalDraft
  dsimp only
  rw [hnil]
  rfl

theorem C7_empty_rejected_witness :
    previewFinalDraft sEmpty
      = (sEmpty, some ("Please take/upload at least one photo.".data)) :=
  C7_empty_rejected sEmpty (fun _ _ _ ho => List.eq_of_mem_replicate ho)

/-- C9: the heap-level rendering never mutates the caller's image: the
copy and the canvas are fresh allocations and every drawing call targets
the canvas, so after the call the heap entry of the input image is
exactly what it was before. -/
theorem C9_render_no_mutation (M : FontMetrics) (heap : List HImg) (imgId : Nat)
    (label : List Char) (h : imgId < heap.length) :
    (render_image_heap M heap imgId label).1[imgId]? = heap[imgId]? := by
  unfold render_image_heap appendOp
  dsimp only
  simp only [List.length_append, List.length_cons, List.length_nil]
  rw [List.getElem?_set_ne (by omega), List.getElem?_set_ne (by omega),
    List.getElem?_set_ne (by omega),
    List.getElem?_append_left (by simpa using Nat.lt_succ_of_lt h),
    List.getElem?_append_left h]

theorem C9_render_no_mutation_witness :
    (render_image_heap M0 heap0 0 "CPU".data).1[0]? = heap0[0]? :=
  C9_render_no_mutation M0 heap0 0 "CPU".data (by decide)

theorem wrapChunks_nil (width fuel : Nat) (hasLines : Bool) :
    wrapChunks width fuel [] hasLines = [] := by
  cases fuel <;> rfl

theorem isSpaceRun_eq_false {c : List Char} (hne : c ≠ [])
    (hns : ∀ ch ∈ c, (ch == ' ') = false) : isSpaceRun c = false := by
  cases c with
  | nil => exact absurd rfl hne
  | cons a l =>
    unfold isSpaceRun
    simp only [List.all_cons, hns a (List.mem_cons_self a l), Bool.false_and]

theorem lineStep_single_short (hasLines : Bool) {c : List Char} (hne : c ≠ [])
    (hns : ∀ ch ∈ c, (ch == ' ') = false) (hlen : c.length ≤ 60) :
    lineStep 60 hasLines [c] = (some c, []) := by
  have hsr := isSpaceRun_eq_false hne hns
  have hemp : c.isEmpty = false := List.isEmpty_eq_false.mpr hne
  unfold lineStep dropLeadingSpace handleLong dropTrailingSpace
  simp [greedyTake, hsr, hlen, hemp]

theorem lineStep_single_long (hasLines : Bool) {c : List Char}
    (hns : ∀ ch ∈ c, (ch == ' ') = false) (hlen : 60 < c.length) :
    lineStep 60 hasLines [c] = (some (c.take 60), [c.drop 60]) := by
  have hne : c ≠ [] := by
    intro h
    rw [h] at hlen
    simp at hlen
  have hsr := isSpaceRun_eq_false hne hns
  have htlen : (c.take 60).length = 60 := by
    rw [List.length_take]
    omega
  have htake_ne : c.take 60 ≠ [] := by
    intro h
    rw [h] at htlen
    simp at htlen
  have hsrt := isSpaceRun_eq_false htake_ne
    (fun ch hm => hns ch (List.mem_of_mem_take hm))
  have hemp : (c.take 60).isEmpty = false := List.isEmpty_eq_false.mpr htake_ne
  unfold lineStep dropLeadingSpace handleLong dropTrailingSpace
  simp [greedyTake, hsr, hsrt, hemp, Nat.not_le.mpr hlen, hlen]

theorem wrapChunks_single_noSpace : ∀ (fuel : Nat) (c : List Char) (hasLines : Bool),
    c ≠ [] → (∀ ch ∈ c, (ch == ' ') = false) → c.length ≤ 60 * fuel →
    (wrapChunks 60 fuel [c] hasLines).length = (c.length + 59) / 60 := by
  intro fuel
  induction fuel with
  | zero =>
    intro c _ hne _ hlen
    rw [Nat.mul_zero, Nat.le_zero] at hlen
    exact absurd (List.length_eq_zero.mp hlen) hne
  | succ fuel ih =>
    intro c hasLines hne hns hlen
    rcases le_or_lt c.length 60 with hc | hc
    · rw [wrapChunks, lineStep_single_short hasLines hne hns hc]
      dsimp only
      rw [wrapChunks_nil]
      have hpos : 0 < c.length := List.length_pos.mpr hne
      rw [List.length_cons, List.length_nil]
      exact (Nat.div_eq_of_lt_le (by omega) (by omega)).symm
    · rw [wrapChunks, lineStep_single_long hasLines hns hc]
      dsimp only
      have hdlen : (c.drop 60).length = c.length - 60 := List.length_drop 60 c
      have hdne : c.drop 60 ≠ [] := by
        intro h
        rw [h] at hdlen
        simp at hdlen
        omega
      have hdns : ∀ ch ∈ c.drop 60, (ch == ' ') = false :=
        fun ch hm => hns ch (List.mem_of_mem_drop hm)
      rw [List.length_cons, ih (c.drop 60) true hdne hdns (by rw [hdlen]; omega), hdlen]
      obtain ⟨k, hk⟩ : ∃ k, c.length = k + 61 := ⟨c.length - 61, by omega⟩
      rw [hk]
      rw [show k + 61 - 60 + 59 = k + 60 from by omega,
          show k + 61 + 59 = k + 60 + 60 from by omega,
          Nat.add_div_right _ (by norm_num), Nat.add_div_right _ (by norm_num),
          Nat.add_div_right _ (by norm_num)]

theorem munge_fix {s : List Char} (h : ∀ c ∈ s, c ∉ pythonWS) : munge s = s := by
  unfold munge
  rw [List.map_congr_left (fun c hc => if_neg (h c hc)), List.map_id']

theorem splitChunks_noSpace : ∀ {s : List Char}, s ≠ [] →
    (∀ c ∈ s, (c == ' ') = false) → splitChunks s = [s] := by
  intro s
  induction s with
  | nil => intro h _; exact absurd rfl h
  | cons a l ih =>
    intro _ hns
    cases l with
    | nil => rfl
    | cons b m =>
      have hl : splitChunks (b :: m) = [b :: m] :=
        ih (by simp) (fun c hc => hns c (List.mem_cons_of_mem a hc))
      rw [splitChunks, hl]
      simp [hns a (List.mem_cons_self a (b :: m)), hns b (by simp)]

theorem wrapText_noSpace_length {s : List Char} (hne : s ≠ [])
    (hns : ∀ c ∈ s, c ∉ pythonWS) :
    (wrapText 60 s).length = (s.length + 59) / 60 := by
  have hns' : ∀ c ∈ s, (c == ' ') = false := by
    intro c hc
    have h1 := hns c hc
    simp only [pythonWS, List.mem_cons, List.not_mem_nil, or_false, not_or] at h1
    exact beq_eq_false_iff_ne.mpr h1.1
  rw [wrapText, munge_fix hns, splitChunks_noSpace hne hns']
  exact wrapChunks_single_noSpace (2 * s.length + 1) s false hne hns' (by omega)

set_option maxRecDepth 100000 in
/-- C5 fails as stated: a 300-character description consisting entirely
of spaces wraps to zero lines (textwrap drops whitespace-only content),
not five, so zero description lines are drawn on the cover page. -/
theorem C5_counterexample :
    (List.replicate 300 ' ').length = 300 ∧
    (wrapText 60 (List.replicate 300 ' ')).length = 0 ∧
    ¬((wrapText 60 (List.replicate 300 ' ')).length = 5) ∧
    descLineOps (List.replicate 300 ' ') = [] := by decide

/-- C5 (amended): for a description of exactly 300 characters containing
no whitespace (and no hyphen, which the wrapper could break at), the
wrap at column width 60 breaks the single 300-character word into
exactly 5 lines, drawn at the strictly increasing vertical offsets
225, 259, 293, 327, 361 spaced by the fixed line height 34; an empty
description draws zero lines.  Word-structured descriptions of 300
characters can produce a different line count. -/
theorem C5_desc_wrap (s : List Char) (h300 : s.length = 300)
    (hs : ∀ c ∈ s, c ∉ pythonWS ∧ c ≠ '-') :
    (wrapText 60 s).length = 5 ∧
    (descLineOps s).map opY = [225, 259, 293, 327, 361] ∧
    List.Chain' (fun a b => a + 34 = b ∧ a < b) ((descLineOps s).map opY) ∧
    descLineOps [] = [] := by
  have hne : s ≠ [] := by
    intro h
    rw [h] at h300
    simp at h300
  have hlen : (wrapText 60 s).length = 5 := by
    rw [wrapText_noSpace_length hne (fun c hc => (hs c hc).1), h300]
  have hmap : (descLineOps s).map opY = [225, 259, 293, 327, 361] := by
    unfold descLineOps
    rw [List.map_map]
    rw [show (opY ∘ fun p : Nat × List Char =>
          DrawOp.text 80 ((225 : Int) + 34 * (p.1 : Int)) p.2 26 Ink.black false)
        = ((fun i : Nat => (225 : Int) + 34 * (i : Int)) ∘ Prod.fst) from rfl]
    rw [← List.map_map, List.enum_map_fst, hlen]
    decide
  refine ⟨hlen, hmap, ?_, rfl⟩
  rw [hmap]
  norm_num [List.chain'_cons]

theorem C5_desc_wrap_witness :
    (wrapText 60 (List.replicate 300 'a')).length = 5 ∧
    (descLineOps (List.replicate 300 'a')).map opY = [225, 259, 293, 327, 361] := by
  have h := C5_desc_wrap (List.replicate 300 'a') (List.length_replicate 300 'a')
    (fun c hc => by
      rw [List.eq_of_mem_replicate hc]
      exact ⟨by decide, by decide⟩)
  exact ⟨h.1, h.2.1⟩
